import Mathlib

/-!
Verification of the wiktok Continuous Feed Engine against its source.

The definitions below are shallow embeddings of the TypeScript source:
* `FeedState`, `fetchMore`, `maybePreFetch`, `refreshClear` — `src/lib/feed.ts`
  (the `FeedManager` class);
* `retryGo`, `fetchWithRetryModel`, `fetchWithTimeoutModel`,
  `isRetryableOutcome` — `src/lib/wikipedia.ts`;
* `fetchRandomSummariesModel` — `src/lib/wikipedia.ts` (`fetchRandomSummaries`);
* `bgConfigChange`, `bgCanPlay`, `ciSrcChange` and the opacity functions —
  `src/components/Background.tsx` and `src/components/CardImage.tsx`;
* `handleScrollEndModel` — `src/components/Feed.tsx` (`handleScrollEnd`).

Asynchrony is linearized: a fetch that starts and later settles is modelled
as one atomic step taking the settled result as a parameter, which is sound
because `isLoading` keeps at most one fetch in flight and all state updates
run on the single-threaded event loop.
-/

namespace Wiktok

/-- A feed card; the engine keys and dedupes purely by `id`
(`id` is built as `lang:pageid` in `responseToCard`). The `title` field
stands for the rest of the payload. -/
structure WikiCard where
  id : String
  title : String
  deriving DecidableEq, Repr

/-- State of the `FeedManager` singleton (`src/lib/feed.ts`):
`cards`, `seenIds`, `isLoading`, `error`, `topicMode`, `currentTopicTitle`. -/
structure FeedState where
  cards : List WikiCard
  seenIds : Finset String
  isLoading : Bool
  error : Option String
  topicMode : Bool
  currentTopicTitle : Option String
  deriving DecidableEq

/-- The state right after `new FeedManager()` ran its field initializers and
constructor body: cached cards (if any) are installed and their ids recorded
in `seenIds`. -/
def initFeed (cached : List WikiCard) : FeedState :=
  if cached.length > 0 then
    { cards := cached
      seenIds := cached.foldl (fun s c => insert c.id s) ∅
      isLoading := false
      error := none
      topicMode := false
      currentTopicTitle := none }
  else
    { cards := []
      seenIds := ∅
      isLoading := false
      error := none
      topicMode := false
      currentTopicTitle := none }

/-- One broadcast to subscribers: `callback(this.cards, this.isLoading, this.error)`. -/
structure Broadcast where
  cards : List WikiCard
  isLoading : Bool
  error : Option String
  deriving DecidableEq

/-- Payload of one `notify()` call for a given state. -/
def broadcastOf (s : FeedState) : Broadcast :=
  { cards := s.cards, isLoading := s.isLoading, error := s.error }

/-- The dedup-append step inside `fetchMore`:
`uniqueCards = newCards.filter(c => !this.seenIds.has(c.id))`,
then `uniqueCards.forEach(c => this.seenIds.add(c.id))`,
then `this.cards = [...this.cards, ...uniqueCards]`.
The membership filter runs entirely against the `seenIds` set as it stood
before this batch; ids of appended cards are added afterwards. -/
def applyBatch (s : FeedState) (newCards : List WikiCard) : FeedState :=
  let uniqueCards := newCards.filter (fun c => c.id ∉ s.seenIds)
  { s with
    cards := s.cards ++ uniqueCards
    seenIds := uniqueCards.foldl (fun acc c => insert c.id acc) s.seenIds }

/-- Linearized `fetchMore`: the settled outcome of the network fetch
(success with a batch of cards, or a failure message) is a parameter.
Returns the final state and the list of `notify()` broadcasts, in order.
If a fetch is already in flight (`isLoading`), the call returns at once
with no state change and no broadcast. On failure the `catch` block stores
the message in `error`; the `finally` block clears `isLoading` and notifies.
`fetchMore` never rethrows: its result type carries no failure. -/
def fetchMore (s : FeedState) (result : Except String (List WikiCard)) :
    FeedState × List Broadcast :=
  if s.isLoading then (s, [])
  else
    let s1 : FeedState := { s with isLoading := true, error := none }
    let s2 : FeedState :=
      match result with
      | .ok newCards => applyBatch s1 newCards
      | .error e => { s1 with error := some e }
    let s3 : FeedState := { s2 with isLoading := false }
    (s3, [broadcastOf s1, broadcastOf s3])

/-- Constant `PREFETCH_THRESHOLD = 3`. -/
def PREFETCH_THRESHOLD : Int := 3

/-- Embedding of `maybePreFetch(currentIndex)`: computes
`remaining = this.cards.length - currentIndex - 1` and calls `fetchMore()`
when `remaining <= PREFETCH_THRESHOLD && !this.isLoading`.
The boolean records whether a network fetch was started; starting one
synchronously sets `isLoading` and clears `error` (the prefix of
`fetchMore` that runs before its first await). -/
def maybePreFetch (s : FeedState) (currentIndex : Nat) : FeedState × Bool :=
  let remaining : Int := (s.cards.length : Int) - (currentIndex : Int) - 1
  if remaining ≤ PREFETCH_THRESHOLD ∧ s.isLoading = false then
    ({ s with isLoading := true, error := none }, true)
  else (s, false)

/-- Repeated `maybePreFetch` calls (one per element of `idxs`), counting how
many network fetches were started. -/
def maybePreFetchMany (s : FeedState) (idxs : List Nat) : FeedState × Nat :=
  idxs.foldl
    (fun acc i =>
      let (s', started) := maybePreFetch acc.1 i
      (s', acc.2 + (if started then 1 else 0)))
    (s, 0)

/-- The synchronous clearing part of `refresh()`: empties `cards` and
`seenIds`, resets `error` and topic state (the follow-up
`fetchMore(INITIAL_FETCH_COUNT)` is a separate `fetchMore` step). -/
def refreshClear (s : FeedState) : FeedState :=
  { s with
    cards := []
    seenIds := ∅
    error := none
    topicMode := false
    currentTopicTitle := none }

/-- State change of `enableTopicMode(title)` (its trailing `fetchMore()` is a
separate step). -/
def enableTopic (s : FeedState) (title : String) : FeedState :=
  { s with topicMode := true, currentTopicTitle := some title }

/-- State change of `disableTopicMode()`. -/
def disableTopic (s : FeedState) : FeedState :=
  { s with topicMode := false, currentTopicTitle := none }

/-- One externally-triggered `FeedManager` operation, with the settled
outcome of any fetch it starts linearized into the operation. -/
inductive FeedOp where
  | fetched (result : Except String (List WikiCard))
  | refreshed
  | prefetchAt (i : Nat) (result : Except String (List WikiCard))
  | topicOn (title : String)
  | topicOff

/-- Apply one operation. A `prefetchAt` that starts a fetch completes it with
the given settled result (via `fetchMore`); one that does not runs nothing. -/
def stepFeed (s : FeedState) (op : FeedOp) : FeedState :=
  match op with
  | .fetched result => (fetchMore s result).1
  | .refreshed => refreshClear s
  | .prefetchAt i result =>
      let remaining : Int := (s.cards.length : Int) - (i : Int) - 1
      if remaining ≤ PREFETCH_THRESHOLD ∧ s.isLoading = false then
        (fetchMore s result).1
      else s
  | .topicOn title => enableTopic s title
  | .topicOff => disableTopic s

/-- Run a sequence of operations from the constructor state. -/
def runFeed (cached : List WikiCard) (ops : List FeedOp) : FeedState :=
  ops.foldl stepFeed (initFeed cached)

/-! ### Network resilience layer (`src/lib/wikipedia.ts`) -/

/-- The settled outcome of one `fetchWithTimeout` call, as observed by the
`try`/`catch` in `fetchWithRetry`: a received HTTP response with a status
code, a thrown transport-level `TypeError` (network error), or a thrown
`AbortError` (the per-attempt timeout fired, or the signal of the caller
aborted mid-flight). -/
inductive AttemptOutcome where
  | response (status : Nat)
  | netError
  | abortError
  deriving DecidableEq, Repr

/-- Predicate for `response.ok` on a status code: 200–299. -/
def httpOk (status : Nat) : Prop := 200 ≤ status ∧ status < 300

instance (status : Nat) : Decidable (httpOk status) := by
  unfold httpOk; infer_instance

/-- Embedding of `isRetryableError` from `src/lib/wikipedia.ts`, applied to a settled attempt
outcome: a thrown network `TypeError` is retryable; a thrown `AbortError` is
not ("Timeout/abort errors are not retryable"); a received response is
retryable exactly when its status is 429 or 5xx. -/
def isRetryableOutcome : AttemptOutcome → Bool
  | .response status => status == 429 || (500 ≤ status && status < 600)
  | .netError => true
  | .abortError => false

/-- What `fetchWithRetry` ends with: a returned `Response` (carrying its
status) or a rethrown error. -/
inductive RetryResult where
  | returned (status : Nat)
  | threwNet
  | threwAbort
  | threwOffline
  deriving DecidableEq, Repr

/-- The error currently held in `lastError` (only its identity matters for
the final `throw lastError`). -/
inductive LastError where
  | httpErr (status : Nat)
  | netErr
  deriving DecidableEq, Repr

/-- Value of `lastError` rethrown at loop exit, mapped to a `RetryResult`. Only
reachable when every attempt threw a network error, so `lastResponse` is
`none` and `lastError` a `netErr`; `httpErr` cannot coexist with
`lastResponse = none` but is carried for fidelity. -/
def throwLast : Option LastError → RetryResult
  | some (.httpErr status) => .returned status
  | some .netErr => .threwNet
  | none => .threwNet

/-- The retry loop of `fetchWithRetry`, one constructor case per iteration.
`attempt` is the loop counter, `fuel` the number of iterations left
(`maxRetries + 1` at entry), `lastResp`/`lastErr` the `lastResponse` and
`lastError` locals. `online`/`abortedSig` give, per iteration, the values of
`navigator.onLine` and `options.signal.aborted` read at the top of the loop;
`oracle` gives the settled outcome of each attempt. The second component counts
network attempts (calls to `fetchWithTimeout`) actually made. The backoff
`sleep` between attempts only delays and is dropped from the state. -/
def retryGo (online abortedSig : Nat → Bool) (oracle : Nat → AttemptOutcome) :
    Nat → Nat → Option Nat → Option LastError → RetryResult × Nat
  | _, 0, lastResp, lastErr =>
      -- loop exhausted: `return lastResponse` if any, else `throw lastError`
      (match lastResp with
       | some status => (.returned status, 0)
       | none => (throwLast lastErr, 0))
  | attempt, fuel + 1, lastResp, _ =>
      if online attempt = false then (.threwOffline, 0)
      else if abortedSig attempt = true then (.threwAbort, 0)
      else
        match oracle attempt with
        | .response status =>
            if httpOk status then (.returned status, 1)
            else if isRetryableOutcome (.response status) = false then
              (.returned status, 1)
            else
              let rest := retryGo online abortedSig oracle (attempt + 1) fuel
                (some status) (some (.httpErr status))
              (rest.1, rest.2 + 1)
        | .netError =>
            let rest := retryGo online abortedSig oracle (attempt + 1) fuel
              lastResp (some .netErr)
            (rest.1, rest.2 + 1)
        | .abortError => (.threwAbort, 1)

/-- Embedding of `fetchWithRetry(url, init, options)`: run the loop for
`attempt = 0 .. maxRetries`, i.e. with `maxRetries + 1` iterations of fuel. -/
def fetchWithRetryModel (online abortedSig : Nat → Bool)
    (oracle : Nat → AttemptOutcome) (maxRetries : Nat) : RetryResult × Nat :=
  retryGo online abortedSig oracle 0 (maxRetries + 1) none none

/-- Embedding of `fetchWithTimeout`: a fresh `AbortController` and a fresh timer of
`timeoutMs` are created for this single attempt; if the underlying `fetch`
would settle only at `arrivalMs ≥ timeoutMs`, the timer aborts the request
first and the attempt settles as a thrown `AbortError`. -/
def fetchWithTimeoutModel (timeoutMs : Nat) (arrivalMs : Nat)
    (outcome : AttemptOutcome) : AttemptOutcome :=
  if arrivalMs < timeoutMs then outcome else .abortError

/-- The value of `lastResponse` after running attempts
`attempt, …, attempt + fuel - 1` when every one of them is a retryable
failure: a retryable response overwrites it, a thrown error leaves it. -/
def accResp (oracle : Nat → AttemptOutcome) : Nat → Nat → Option Nat → Option Nat
  | _, 0, lastResp => lastResp
  | attempt, fuel + 1, lastResp =>
      accResp oracle (attempt + 1) fuel
        (match oracle attempt with
         | .response status => some status
         | _ => lastResp)

/-- The status of the last HTTP response received over attempts
`0 .. maxRetries` (`none` when every attempt threw). -/
def lastReceivedStatus (oracle : Nat → AttemptOutcome) (maxRetries : Nat) :
    Option Nat :=
  accResp oracle 0 (maxRetries + 1) none

/-! ### `fetchRandomSummaries` (`src/lib/wikipedia.ts`) -/

/-- Embedding of `fetchRandomSummaries(count)`: fires `count` independent
`fetchRandomSummary` promises, `Promise.allSettled`s them, keeps the
fulfilled values in order, and throws the error message `Failed to fetch summaries` when
none fulfilled. `results k` is the settled outcome of the `k`-th promise
(`some card` if fulfilled, `none` if rejected). -/
def fetchRandomSummariesModel (count : Nat) (results : Nat → Option WikiCard) :
    Except String (List WikiCard) :=
  let cards := (List.range count).filterMap results
  if cards.isEmpty then .error "Failed to fetch summaries" else .ok cards

/-! ### Double-buffered background video swapper (`src/components/Background.tsx`) -/

/-- One of the two physical buffers. -/
inductive Slot where
  | A
  | B
  deriving DecidableEq, Repr

/-- The buffer that is not `s`. -/
def Slot.other : Slot → Slot
  | .A => .B
  | .B => .A

/-- React state and refs of the two-slot `Background` component:
`activeSlot`, `slotASrc`/`slotBSrc`, `nextVideoReady`, and the refs
`prevConfigSrcRef` and `pendingSwapSrcRef`. -/
structure BgState where
  activeSlot : Slot
  slotASrc : Option String
  slotBSrc : Option String
  nextVideoReady : Bool
  prevConfigSrc : Option String
  pendingSwapSrc : Option String
  deriving DecidableEq, Repr

/-- The src currently assigned to a slot. -/
def BgState.srcOf (s : BgState) (slot : Slot) : Option String :=
  match slot with
  | .A => s.slotASrc
  | .B => s.slotBSrc

/-- Assign a src to a slot (`setSlotASrc` / `setSlotBSrc`). -/
def BgState.setSrc (s : BgState) (slot : Slot) (src : Option String) : BgState :=
  match slot with
  | .A => { s with slotASrc := src }
  | .B => { s with slotBSrc := src }

/-- The `useLayoutEffect([configSrc])` body of `Background`: reacts to a
change of the desired video src. Cases, in source order: no src → clear
both slots; unchanged src → no-op; first load → slot A; src equal to the
src of the *inactive* slot → swap the active pointer immediately; otherwise →
assign to the inactive slot and record a pending-swap intent. -/
def bgConfigChange (s : BgState) (configSrc : Option String) : BgState :=
  match configSrc with
  | none =>
      { s with
        slotASrc := none
        slotBSrc := none
        nextVideoReady := false
        prevConfigSrc := none
        pendingSwapSrc := none }
  | some src =>
      if s.prevConfigSrc = some src then s
      else
        match s.prevConfigSrc with
        | none =>
            { s with
              slotASrc := some src
              activeSlot := .A
              nextVideoReady := false
              prevConfigSrc := some src }
        | some _ =>
            let inactiveSlot := s.activeSlot.other
            let inactiveSlotSrc := s.srcOf inactiveSlot
            if inactiveSlotSrc = some src then
              { s with
                activeSlot := inactiveSlot
                nextVideoReady := false
                pendingSwapSrc := none
                prevConfigSrc := some src }
            else
              { s.setSrc inactiveSlot (some src) with
                pendingSwapSrc := some src
                nextVideoReady := false
                prevConfigSrc := some src }

/-- The `useEffect([nextConfigSrc, configSrc, activeSlot])` body: preloads a
predicted next src into the inactive slot without swapping. -/
def bgNextConfigChange (s : BgState) (nextConfigSrc configSrc : Option String)
    (prevNextConfigSrc : Option String) : BgState × Option String :=
  match nextConfigSrc with
  | none =>
      if prevNextConfigSrc.isSome then
        ({ s with nextVideoReady := false }, none)
      else (s, prevNextConfigSrc)
  | some nsrc =>
      if prevNextConfigSrc = some nsrc then (s, prevNextConfigSrc)
      else if configSrc = some nsrc then (s, prevNextConfigSrc)
      else
        let inactiveSlot := s.activeSlot.other
        ({ s.setSrc inactiveSlot (some nsrc) with nextVideoReady := false },
         some nsrc)

/-- The `onCanPlay` handler of the `<video>` of a slot (`handleVideoACanPlay` /
`handleVideoBCanPlay`): a real load-completion event. If the slot is not
active and is the pending-swap target, perform the swap and clear the
pending intent; otherwise mark the preloaded next video ready. -/
def bgCanPlay (s : BgState) (slot : Slot) : BgState :=
  if s.activeSlot = slot then s
  else
    match s.pendingSwapSrc with
    | some pending =>
        if some pending = s.srcOf slot then
          { s with
            activeSlot := slot
            pendingSwapSrc := none
            nextVideoReady := false }
        else { s with nextVideoReady := true }
    | none => { s with nextVideoReady := true }

/-- Opacity of the active `Background` slot: `currentOpacity = 1 - scrollProgress`. -/
def bgCurrentOpacity (scrollProgress : ℚ) : ℚ :=
  1 - scrollProgress

/-- Opacity of the inactive `Background` slot:
`nextVideoReady && scrollProgress > 0.2 ? Math.min((scrollProgress - 0.2) / 0.5, 1) : 0`. -/
def bgNextOpacity (nextVideoReady : Bool) (scrollProgress : ℚ) : ℚ :=
  if nextVideoReady = true ∧ (1 : ℚ)/5 < scrollProgress then
    min ((scrollProgress - 1/5) / (1/2)) 1
  else 0

/-! ### Double-buffered card image swapper (`src/components/CardImage.tsx`) -/

/-- React state and refs of the two-slot `CardImage` component: `activeSlot`,
per-slot srcs and per-slot `loaded` flags, plus `prevSrcRef`. -/
structure CiState where
  activeSlot : Slot
  slotASrc : Option String
  slotBSrc : Option String
  slotALoaded : Bool
  slotBLoaded : Bool
  prevSrc : Option String
  deriving DecidableEq, Repr

/-- The `loaded` flag of a slot. -/
def CiState.loadedOf (s : CiState) (slot : Slot) : Bool :=
  match slot with
  | .A => s.slotALoaded
  | .B => s.slotBLoaded

/-- The src of a slot. -/
def CiState.srcOf (s : CiState) (slot : Slot) : Option String :=
  match slot with
  | .A => s.slotASrc
  | .B => s.slotBSrc

/-- The `useEffect([src])` body of `CardImage`. `cachedInBrowser u` models
the `new Image(); img.src = u; img.complete && img.naturalWidth > 0` probe
of the image cache of the browser. Cases, in source order: no src → clear; same
src → no-op; first load → slot A; src equal to that of the *inactive* slot →
swap the active pointer immediately; otherwise → load into the *active*
slot. -/
def ciSrcChange (s : CiState) (src : Option String)
    (cachedInBrowser : String → Bool) : CiState :=
  match src with
  | none =>
      { s with
        slotASrc := none
        slotBSrc := none
        slotALoaded := false
        slotBLoaded := false
        prevSrc := none }
  | some u =>
      if s.prevSrc = some u then s
      else
        match s.prevSrc with
        | none =>
            { s with
              slotASrc := some u
              activeSlot := .A
              prevSrc := some u
              slotALoaded := cachedInBrowser u }
        | some _ =>
            let inactiveSlotSrc :=
              match s.activeSlot with
              | .A => s.slotBSrc
              | .B => s.slotASrc
            if inactiveSlotSrc = some u then
              { s with
                activeSlot := s.activeSlot.other
                prevSrc := some u }
            else
              match s.activeSlot with
              | .A =>
                  { s with
                    slotASrc := some u
                    slotALoaded := cachedInBrowser u
                    prevSrc := some u }
              | .B =>
                  { s with
                    slotBSrc := some u
                    slotBLoaded := cachedInBrowser u
                    prevSrc := some u }

/-- The `onLoad` handler of the `<img>` of a slot: sets the loaded flag of that slot. -/
def ciImageLoad (s : CiState) (slot : Slot) : CiState :=
  match slot with
  | .A => { s with slotALoaded := true }
  | .B => { s with slotBLoaded := true }

/-- Opacity of the active `CardImage` slot:
`currentOpacity = activeLoaded ? (1 - scrollProgress) : 0`. -/
def ciCurrentOpacity (activeLoaded : Bool) (scrollProgress : ℚ) : ℚ :=
  if activeLoaded = true then 1 - scrollProgress else 0

/-- Opacity of the inactive `CardImage` slot:
`nextLoaded && scrollProgress > 0.2 ? Math.min((scrollProgress - 0.2) / 0.5, 1) : 0`. -/
def ciNextOpacity (nextLoaded : Bool) (scrollProgress : ℚ) : ℚ :=
  if nextLoaded = true ∧ (1 : ℚ)/5 < scrollProgress then
    min ((scrollProgress - 1/5) / (1/2)) 1
  else 0

/-- Rendering of the spec wording for the inactive-buffer opacity, for
comparison with `ciNextOpacity`/`bgNextOpacity` from the source: 0 while `progress ≤ 0.2`,
"then ramps linearly to 1 as progress approaches 1" — the straight line
from (0.2, 0) to (1, 1) — gated by the buffer having completed loading. -/
def specInactiveOpacity (loaded : Bool) (scrollProgress : ℚ) : ℚ :=
  if loaded = true ∧ (1 : ℚ)/5 < scrollProgress then
    (scrollProgress - 1/5) / (4/5)
  else 0

/-! ### Scroll-settle state machine (`src/components/Feed.tsx`) -/

/-- The `behavior` argument of the `scrollTo` issued by a settle decision. -/
inductive ScrollBehavior where
  | auto
  | smooth
  deriving DecidableEq, Repr

/-- What one `handleScrollEnd` invocation does: the new logical index, and
the viewport write it issues (`scrollTo` top and behavior), if any.
Committing to the adjacent card goes through `resetToMiddleAndSetIndex`
(instant jump to `cardHeight`); the rubber-band path goes through
`scrollToMiddle(false)` (smooth scroll to `cardHeight`). -/
structure SettleDecision where
  newIndex : Nat
  scrollTo : Option (ℚ × ScrollBehavior)
  deriving DecidableEq, Repr

/-- Embedding of `handleScrollEnd` from `Feed`, as a function of the guards
(`isResettingScroll`, `isUserInteracting`), the measured `scrollTop` and
`clientHeight`, the logical `currentIndex` and `cards.length`. The three
slots sit at `scrollTop` 0, `cardHeight`, `2 * cardHeight`;
`snapEpsilon = max(12, cardHeight * 0.12)`. The branch structure mirrors
the `if`/`else if` chain of the source exactly. -/
def handleScrollEndModel (isResettingScroll isUserInteracting : Bool)
    (scrollTop cardHeight : ℚ) (currentIndex numCards : Nat) : SettleDecision :=
  if isResettingScroll = true ∨ isUserInteracting = true then
    { newIndex := currentIndex, scrollTo := none }
  else
    let snapEpsilon : ℚ := max 12 (cardHeight * (12/100))
    let atPrev := |scrollTop - 0| ≤ snapEpsilon
    let atCurrent := |scrollTop - cardHeight| ≤ snapEpsilon
    let atNext := |scrollTop - cardHeight * 2| ≤ snapEpsilon
    if atPrev ∧ 0 < currentIndex then
      { newIndex := currentIndex - 1, scrollTo := some (cardHeight, .auto) }
    else if atNext ∧ (currentIndex : Int) < (numCards : Int) - 1 then
      { newIndex := currentIndex + 1, scrollTo := some (cardHeight, .auto) }
    else if ¬atCurrent then
      if (atPrev ∧ currentIndex = 0) ∨
          (atNext ∧ (currentIndex : Int) = (numCards : Int) - 1) then
        { newIndex := currentIndex, scrollTo := some (cardHeight, .smooth) }
      else
        { newIndex := currentIndex, scrollTo := none }
    else if (atPrev ∧ currentIndex = 0) ∨
        (atNext ∧ (currentIndex : Int) = (numCards : Int) - 1) then
      { newIndex := currentIndex, scrollTo := some (cardHeight, .smooth) }
    else
      { newIndex := currentIndex, scrollTo := none }

/-! ### Array-identity model of the `cards` field of FeedManager

To talk about in-place mutation we make array identity explicit: the heap
is the list of all card arrays ever allocated, an array is named by its
allocation index, and `curId` is the array `this.cards` currently points
to. `this.cards = [...this.cards, ...uniqueCards]` in `fetchMore` and
`this.cards = []` in `refresh()` each construct a fresh array and repoint
`this.cards`; no statement in `FeedManager` writes through an existing
array (no `push`/`splice`/index assignment), so every step allocates and
never updates. `getCards()` and `notify()` hand out `curId` itself (the
live alias), which is how a subscriber can hold a previously current
array. -/

/-- The FeedManager state with array identity made explicit. -/
structure FeedHeapState where
  heap : List (List WikiCard)
  curId : Nat
  seenIds : Finset String
  deriving DecidableEq

/-- Constructor state: one array allocated — the cached cards (possibly `[]`). -/
def initFeedHeap (cached : List WikiCard) : FeedHeapState :=
  { heap := [cached]
    curId := 0
    seenIds := cached.foldl (fun s c => insert c.id s) ∅ }

/-- The contents of the array `this.cards` points to. -/
def FeedHeapState.curCards (s : FeedHeapState) : List WikiCard :=
  s.heap.getD s.curId []

/-- Growth/refresh operations on the cards array. -/
inductive HeapOp where
  | grow (newCards : List WikiCard)
  | refreshOp

/-- One step. `grow` builds `[...this.cards, ...uniqueCards]` — a fresh
array appended to the heap — and repoints `curId` at it; `refreshOp`
likewise allocates the fresh `[]` of `this.cards = []`. Existing heap
entries are never written. -/
def stepHeap (s : FeedHeapState) (op : HeapOp) : FeedHeapState :=
  match op with
  | .grow newCards =>
      let uniqueCards := newCards.filter (fun c => c.id ∉ s.seenIds)
      { heap := s.heap ++ [s.curCards ++ uniqueCards]
        curId := s.heap.length
        seenIds := uniqueCards.foldl (fun acc c => insert c.id acc) s.seenIds }
  | .refreshOp =>
      { heap := s.heap ++ [[]]
        curId := s.heap.length
        seenIds := ∅ }

/-- Run a sequence of growth/refresh operations from the constructor state. -/
def runHeap (cached : List WikiCard) (ops : List HeapOp) : FeedHeapState :=
  ops.foldl stepHeap (initFeedHeap cached)

/-! ## Claim C1 — dedup invariant of the card sequence -/

/-- Membership in the `forEach`-style fold that inserts every id of `l`. -/
lemma mem_foldl_insert (l : List WikiCard) (init : Finset String) (x : String) :
    x ∈ l.foldl (fun s c => insert c.id s) init ↔
      x ∈ init ∨ x ∈ l.map WikiCard.id := by
  induction l generalizing init with
  | nil => simp
  | cons c t ih =>
      simp only [List.foldl_cons, ih, Finset.mem_insert, List.map_cons,
        List.mem_cons]
      tauto

/-- The inductive invariant: ids in the sequence are pairwise distinct and
all recorded in `seenIds`. -/
def FeedInv (s : FeedState) : Prop :=
  (s.cards.map WikiCard.id).Nodup ∧ ∀ c ∈ s.cards, c.id ∈ s.seenIds

/-- A batch is internally duplicate-free on ids. -/
def opBatchNodup : FeedOp → Prop
  | .fetched (.ok newCards) => (newCards.map WikiCard.id).Nodup
  | .prefetchAt _ (.ok newCards) => (newCards.map WikiCard.id).Nodup
  | _ => True

lemma initFeed_inv (cached : List WikiCard)
    (hc : (cached.map WikiCard.id).Nodup) : FeedInv (initFeed cached) := by
  unfold initFeed FeedInv
  split
  · refine ⟨hc, fun c hcmem => ?_⟩
    rw [mem_foldl_insert]
    exact Or.inr (List.mem_map_of_mem _ hcmem)
  · simp

lemma applyBatch_inv (s : FeedState) (newCards : List WikiCard)
    (hs : FeedInv s) (hb : (newCards.map WikiCard.id).Nodup) :
    FeedInv (applyBatch s newCards) := by
  unfold applyBatch
  set uniqueCards := newCards.filter (fun c => c.id ∉ s.seenIds) with hu
  have hsub : (uniqueCards.map WikiCard.id).Sublist (newCards.map WikiCard.id) :=
    (List.filter_sublist newCards).map WikiCard.id
  have huniq : (uniqueCards.map WikiCard.id).Nodup := hb.sublist hsub
  constructor
  · rw [List.map_append]
    refine hs.1.append huniq ?_
    intro x hx1 hx2
    obtain ⟨c, hc, rfl⟩ := List.mem_map.mp hx1
    obtain ⟨c', hc', heq⟩ := List.mem_map.mp hx2
    have hnot : c'.id ∉ s.seenIds := by
      have := List.of_mem_filter hc'
      simpa using this
    exact hnot (heq ▸ hs.2 c hc)
  · intro c hcmem
    rw [List.mem_append] at hcmem
    rw [mem_foldl_insert]
    rcases hcmem with h | h
    · exact Or.inl (hs.2 c h)
    · exact Or.inr (List.mem_map_of_mem _ h)

lemma fetchMore_inv (s : FeedState) (result : Except String (List WikiCard))
    (hs : FeedInv s)
    (hb : ∀ newCards, result = .ok newCards → (newCards.map WikiCard.id).Nodup) :
    FeedInv (fetchMore s result).1 := by
  unfold fetchMore
  split
  · exact hs
  · cases result with
    | ok newCards =>
        have : FeedInv (applyBatch { s with isLoading := true, error := none }
            newCards) :=
          applyBatch_inv _ _ hs (hb newCards rfl)
        exact this
    | error e => exact hs

lemma stepFeed_inv (s : FeedState) (op : FeedOp) (hs : FeedInv s)
    (hop : opBatchNodup op) : FeedInv (stepFeed s op) := by
  cases op with
  | fetched result =>
      dsimp only [stepFeed]
      refine fetchMore_inv s result hs ?_
      rintro newCards rfl
      exact hop
  | refreshed =>
      dsimp only [stepFeed]
      exact ⟨by simp [refreshClear], by simp [refreshClear]⟩
  | prefetchAt i result =>
      dsimp only [stepFeed]
      split
      · refine fetchMore_inv s result hs ?_
        rintro newCards rfl
        exact hop
      · exact hs
  | topicOn title => exact hs
  | topicOff => exact hs

lemma foldl_stepFeed_inv (ops : List FeedOp) :
    ∀ s : FeedState, FeedInv s → (∀ op ∈ ops, opBatchNodup op) →
      FeedInv (ops.foldl stepFeed s) := by
  induction ops with
  | nil => intro s hs _; exact hs
  | cons o t ih =>
      intro s hs h
      exact ih _ (stepFeed_inv s o hs (h o (by simp)))
        (fun op hop => h op (by simp [hop]))

/-- C1, counterexample. The claim asserts that after every sequence of
growth operations no two cards in the sequence share an id. It fails on a
single batch that itself contains two cards with the same id: the filter
`newCards.filter(c => !this.seenIds.has(c.id))` tests against `seenIds` as
it stood before the batch, and the ids of appended cards are only added to
`seenIds` after the whole filter ran, so both copies pass. Starting from an
empty queue, one completed fetch whose batch holds two cards with id `x`
leaves the sequence with a duplicated id. -/
theorem feedQueue_dup_in_single_batch :
    ¬ ((runFeed []
        [.fetched (.ok [⟨"x", "t1"⟩, ⟨"x", "t2"⟩])]).cards.map
          WikiCard.id).Nodup := by
  decide

/-- C1, amended: provided the cached cards loaded at construction have
pairwise-distinct ids and every fetched batch has pairwise-distinct ids,
the card sequence of the FeedQueue never contains two cards with equal id,
for every sequence of growth operations (initialization from cache,
fetchMore, prefetch-triggered fetches, topic-mode fetches, refresh):
incoming cards whose id is already in `seenIds` are filtered out before
append and every appended card updates `seenIds`, which rules out
cross-batch duplicates; within-batch duplicates are not filtered, whence
the added hypotheses. -/
theorem feedQueue_dedup_of_nodup_batches (cached : List WikiCard)
    (ops : List FeedOp) (hc : (cached.map WikiCard.id).Nodup)
    (hops : ∀ op ∈ ops, opBatchNodup op) :
    ((runFeed cached ops).cards.map WikiCard.id).Nodup :=
  (foldl_stepFeed_inv ops (initFeed cached) (initFeed_inv cached hc) hops).1

/-- C1, witness: a concrete run — two cached cards, an overlapping fetch,
a prefetch-completed fetch, a topic toggle — keeps ids duplicate-free. -/
theorem feedQueue_dedup_witness :
    ((runFeed [⟨"a", "A"⟩, ⟨"b", "B"⟩]
        [.fetched (.ok [⟨"b", "B2"⟩, ⟨"c", "C"⟩]),
         .topicOn "C",
         .prefetchAt 2 (.ok [⟨"c", "C2"⟩, ⟨"d", "D"⟩]),
         .topicOff]).cards.map WikiCard.id).Nodup :=
  feedQueue_dedup_of_nodup_batches _ _ (by decide)
    (by
      intro op hop
      fin_cases hop <;> simp [opBatchNodup])

/-! ## Claim C2 — prefetch trigger condition and in-flight idempotence -/

lemma maybePreFetch_loading (s : FeedState) (i : Nat)
    (h : s.isLoading = true) : maybePreFetch s i = (s, false) := by
  unfold maybePreFetch
  rw [if_neg]
  simp [h]

/-- C2: `maybePreFetch(i)` starts a network fetch if and only if
`remaining = cards.length - i - 1` is at most the threshold 3 and no fetch
is in flight; and while a fetch is in flight, any number of `maybePreFetch`
calls (at arbitrary indices) leave the state exactly unchanged and start
zero network fetches. -/
theorem maybePreFetch_trigger_iff (s : FeedState) (i : Nat)
    (idxs : List Nat) :
    ((maybePreFetch s i).2 = true ↔
      ((s.cards.length : Int) - (i : Int) - 1 ≤ 3 ∧ s.isLoading = false)) ∧
    (s.isLoading = true → maybePreFetchMany s idxs = (s, 0)) := by
  constructor
  · unfold maybePreFetch PREFETCH_THRESHOLD
    dsimp only
    by_cases h : ((s.cards.length : Int) - (i : Int) - 1 ≤ 3 ∧
      s.isLoading = false)
    · rw [if_pos h]
      simpa using h
    · rw [if_neg h]
      simpa using h
  · intro h
    unfold maybePreFetchMany
    suffices hgen : ∀ l : List Nat, ∀ n : Nat,
        l.foldl
          (fun acc i =>
            let r := maybePreFetch acc.1 i
            (r.1, acc.2 + (if r.2 then 1 else 0)))
          (s, n) = (s, n) by
      simpa using hgen idxs 0
    intro l
    induction l with
    | nil => intro n; rfl
    | cons j t ih =>
        intro n
        simp only [List.foldl_cons, maybePreFetch_loading s j h]
        simpa using ih n

/-- C2, witness: with a fetch in flight on an empty queue, three successive
`maybePreFetch` calls change nothing and start no fetch. -/
theorem maybePreFetch_trigger_iff_witness :
    maybePreFetchMany
      { cards := []
        seenIds := ∅
        isLoading := true
        error := none
        topicMode := false
        currentTopicTitle := none } [0, 1, 2] =
      ({ cards := []
         seenIds := ∅
         isLoading := true
         error := none
         topicMode := false
         currentTopicTitle := none }, 0) :=
  (maybePreFetch_trigger_iff _ 0 [0, 1, 2]).2 rfl

/-! ## Claim C7 — failure frame of `fetchMore` -/

/-- C7: when a fetch settles with a failure (and no other fetch was in
flight), `fetchMore` sets the `error` field to the failure message and
clears `isLoading`, leaves `cards` and `seenIds` exactly unchanged, and
the failure reaches subscribers only as the `error` field of the two
synchronous broadcasts (fetch start, fetch end) — `fetchMore` is total and
returns no exception to its caller. -/
theorem fetchMore_failure_frame (s : FeedState) (e : String)
    (h : s.isLoading = false) :
    ((fetchMore s (.error e)).1.cards = s.cards ∧
      (fetchMore s (.error e)).1.seenIds = s.seenIds ∧
      (fetchMore s (.error e)).1.error = some e ∧
      (fetchMore s (.error e)).1.isLoading = false) ∧
    (fetchMore s (.error e)).2 =
      [{ cards := s.cards, isLoading := true, error := none },
       { cards := s.cards, isLoading := false, error := some e }] := by
  unfold fetchMore
  rw [if_neg (by simp [h])]
  simp [broadcastOf]

/-- C7, witness: a failed fetch on the freshly constructed empty queue. -/
theorem fetchMore_failure_frame_witness :
    ((fetchMore (initFeed []) (.error "HTTP 503")).1.cards = [] ∧
      (fetchMore (initFeed []) (.error "HTTP 503")).1.error = some "HTTP 503") ∧
    (fetchMore (initFeed []) (.error "HTTP 503")).2 =
      [{ cards := [], isLoading := true, error := none },
       { cards := [], isLoading := false, error := some "HTTP 503" }] := by
  have h := fetchMore_failure_frame (initFeed []) "HTTP 503" rfl
  exact ⟨⟨h.1.1, h.1.2.2.1⟩, h.2⟩

/-! ## Claim C10 — the cards array is never mutated in place -/

lemma stepHeap_grows (s : FeedHeapState) (op : HeapOp) :
    s.heap <+: (stepHeap s op).heap := by
  cases op with
  | grow newCards => exact ⟨_, rfl⟩
  | refreshOp => exact ⟨_, rfl⟩

lemma foldl_stepHeap_grows (ops : List HeapOp) :
    ∀ s : FeedHeapState, s.heap <+: (ops.foldl stepHeap s).heap := by
  induction ops with
  | nil => intro s; exact ⟨[], List.append_nil _⟩
  | cons o t ih => intro s; exact (stepHeap_grows s o).trans (ih (stepHeap s o))

/-- C10: the FeedManager never mutates a cards array in place. In the
array-identity model every growth step installs the freshly constructed
`[...cards, ...uniqueCards]` and `refresh()` installs a fresh `[]`; hence
any array that exists after some operations (in particular one previously
handed to a subscriber callback or returned by `getCards`) still holds
exactly the same contents after any further operations. -/
theorem cards_array_immutable (cached : List WikiCard)
    (ops extra : List HeapOp) (j : Nat) (l : List WikiCard)
    (h : (runHeap cached ops).heap[j]? = some l) :
    (runHeap cached (ops ++ extra)).heap[j]? = some l := by
  unfold runHeap at h ⊢
  rw [List.foldl_append]
  obtain ⟨t, ht⟩ := foldl_stepHeap_grows extra (ops.foldl stepHeap (initFeedHeap cached))
  rw [← ht]
  have hj : j < (ops.foldl stepHeap (initFeedHeap cached)).heap.length := by
    by_contra hge
    rw [List.getElem?_eq_none (Nat.le_of_not_lt hge)] at h
    exact Option.noConfusion h
  rw [List.getElem?_append_left hj]
  exact h

/-- C10, witness: the array current after one growth step keeps its exact
contents across a later refresh. -/
theorem cards_array_immutable_witness :
    (runHeap [⟨"a", "A"⟩] [.grow [⟨"b", "B"⟩], .refreshOp]).heap[1]? =
      some [⟨"a", "A"⟩, ⟨"b", "B"⟩] :=
  cards_array_immutable [⟨"a", "A"⟩] [.grow [⟨"b", "B"⟩]] [.refreshOp] 1
    [⟨"a", "A"⟩, ⟨"b", "B"⟩] (by decide)

/-! ## Claim C3 — bounded retry on persistent transient failure -/

/-- A retryable HTTP status (429 or 5xx) is never a success status. -/
lemma retryable_response_not_ok (st : Nat)
    (h : isRetryableOutcome (.response st) = true) : ¬ httpOk st := by
  unfold isRetryableOutcome at h
  unfold httpOk
  simp only [Bool.or_eq_true, beq_iff_eq, Bool.and_eq_true,
    decide_eq_true_eq] at h
  omega

lemma accResp_some_of_some (oracle : Nat → AttemptOutcome) :
    ∀ (fuel attempt st : Nat),
      ∃ st', accResp oracle attempt fuel (some st) = some st' := by
  intro fuel
  induction fuel with
  | zero => intro attempt st; exact ⟨st, rfl⟩
  | succ fuel ih =>
      intro attempt st
      unfold accResp
      cases h : oracle attempt with
      | response s => simpa [h] using ih (attempt + 1) s
      | netError => simpa [h] using ih (attempt + 1) st
      | abortError => simpa [h] using ih (attempt + 1) st

lemma accResp_some_src (oracle : Nat → AttemptOutcome) :
    ∀ (fuel attempt : Nat) (r : Option Nat) (st : Nat),
      accResp oracle attempt fuel r = some st →
      r = some st ∨ ∃ k, k < fuel ∧ oracle (attempt + k) = .response st := by
  intro fuel
  induction fuel with
  | zero =>
      intro attempt r st h
      exact Or.inl h
  | succ fuel ih =>
      intro attempt r st h
      unfold accResp at h
      cases ho : oracle attempt with
      | response s =>
          rw [ho] at h
          rcases ih (attempt + 1) (some s) st h with h1 | ⟨k, hk, hk2⟩
          · refine Or.inr ⟨0, Nat.succ_pos _, ?_⟩
            obtain rfl : s = st := by simpa using h1
            simpa using ho
          · exact Or.inr ⟨k + 1, by omega, by
              have : attempt + (k + 1) = attempt + 1 + k := by omega
              rw [this]; exact hk2⟩
      | netError =>
          rw [ho] at h
          rcases ih (attempt + 1) r st h with h1 | ⟨k, hk, hk2⟩
          · exact Or.inl h1
          · exact Or.inr ⟨k + 1, by omega, by
              have : attempt + (k + 1) = attempt + 1 + k := by omega
              rw [this]; exact hk2⟩
      | abortError =>
          rw [ho] at h
          rcases ih (attempt + 1) r st h with h1 | ⟨k, hk, hk2⟩
          · exact Or.inl h1
          · exact Or.inr ⟨k + 1, by omega, by
              have : attempt + (k + 1) = attempt + 1 + k := by omega
              rw [this]; exact hk2⟩

/-- When every attempt in the window fails retryably, the loop runs the
whole window and ends with the last received response (or, with no response
ever received, rethrows the last network error). -/
lemma retryGo_all_retryable (oracle : Nat → AttemptOutcome) :
    ∀ (fuel attempt : Nat) (lastResp : Option Nat) (lastErr : Option LastError),
      (∀ k, k < fuel → isRetryableOutcome (oracle (attempt + k)) = true) →
      retryGo (fun _ => true) (fun _ => false) oracle attempt fuel lastResp
          lastErr =
        ((match accResp oracle attempt fuel lastResp with
          | some st => .returned st
          | none => if fuel = 0 then throwLast lastErr else .threwNet), fuel) := by
  intro fuel
  induction fuel with
  | zero =>
      intro attempt lastResp lastErr _
      cases lastResp <;> rfl
  | succ fuel ih =>
      intro attempt lastResp lastErr h
      have h0 : isRetryableOutcome (oracle attempt) = true := by
        simpa using h 0 (Nat.succ_pos _)
      have hshift : ∀ k, k < fuel →
          isRetryableOutcome (oracle (attempt + 1 + k)) = true := by
        intro k hk
        have : attempt + 1 + k = attempt + (k + 1) := by omega
        rw [this]
        exact h (k + 1) (by omega)
      have haccstep : accResp oracle attempt (fuel + 1) lastResp =
          accResp oracle (attempt + 1) fuel
            (match oracle attempt with
             | .response status => some status
             | _ => lastResp) := rfl
      unfold retryGo
      rw [if_neg (by simp), if_neg (by simp)]
      cases ho : oracle attempt with
      | response st =>
          have hr : isRetryableOutcome (.response st) = true := ho ▸ h0
          have hnotok : ¬ httpOk st := retryable_response_not_ok st hr
          dsimp only
          rw [if_neg hnotok, if_neg (by simp [hr])]
          rw [ih (attempt + 1) (some st) (some (.httpErr st)) hshift]
          obtain ⟨st', hst'⟩ := accResp_some_of_some oracle fuel (attempt + 1) st
          have hacc : accResp oracle attempt (fuel + 1) lastResp = some st' := by
            rw [haccstep, ho]
            exact hst'
          rw [hacc, hst']
      | netError =>
          dsimp only
          rw [ih (attempt + 1) lastResp (some .netErr) hshift]
          have hacc : accResp oracle attempt (fuel + 1) lastResp =
              accResp oracle (attempt + 1) fuel lastResp := by
            rw [haccstep, ho]
          rw [hacc]
          cases hv : accResp oracle (attempt + 1) fuel lastResp with
          | some st => rfl
          | none =>
              cases fuel with
              | zero => rfl
              | succ f => rfl
      | abortError =>
          rw [ho] at h0
          exact absurd h0 (by simp [isRetryableOutcome])

/-- C3: against an endpoint whose every attempt fails with a retryable
(Transient: HTTP 429/5xx or a network error) failure, a call with
`maxRetries = N` makes exactly `N + 1` attempts and then fails: the last
received response is returned (or, when no response was ever received, the
last error is rethrown), and any returned response has a non-success
status — retrying is never unbounded. -/
theorem fetchWithRetry_transient_bound (maxRetries : Nat)
    (oracle : Nat → AttemptOutcome)
    (h : ∀ k, k ≤ maxRetries → isRetryableOutcome (oracle k) = true) :
    (fetchWithRetryModel (fun _ => true) (fun _ => false) oracle
        maxRetries).2 = maxRetries + 1 ∧
    (fetchWithRetryModel (fun _ => true) (fun _ => false) oracle
        maxRetries).1 =
      (match lastReceivedStatus oracle maxRetries with
       | some st => .returned st
       | none => .threwNet) ∧
    ∀ st, (fetchWithRetryModel (fun _ => true) (fun _ => false) oracle
        maxRetries).1 = .returned st → ¬ httpOk st := by
  have hall : ∀ k, k < maxRetries + 1 →
      isRetryableOutcome (oracle (0 + k)) = true := by
    intro k hk
    simpa using h k (by omega)
  have hmain := retryGo_all_retryable oracle (maxRetries + 1) 0 none none hall
  unfold fetchWithRetryModel lastReceivedStatus
  rw [hmain]
  refine ⟨rfl, ?_, ?_⟩
  · cases accResp oracle 0 (maxRetries + 1) none with
    | some st => rfl
    | none => rfl
  · intro st hret
    cases hv : accResp oracle 0 (maxRetries + 1) none with
    | some st' =>
        rw [hv] at hret
        have hst : st' = st := by
          simpa using hret
        subst hst
        rcases accResp_some_src oracle (maxRetries + 1) 0 none st' hv with
          h1 | ⟨k, hk, hk2⟩
        · exact Option.noConfusion h1
        · refine retryable_response_not_ok st' ?_
          rw [← hk2]
          exact hall k hk
    | none =>
        rw [hv] at hret
        simp at hret

/-- C3, witness: every attempt answers HTTP 500 and `maxRetries = 2`:
exactly 3 attempts, then the last 500 response is returned. -/
theorem fetchWithRetry_transient_bound_witness :
    (fetchWithRetryModel (fun _ => true) (fun _ => false)
        (fun _ => .response 500) 2).2 = 2 + 1 ∧
    (fetchWithRetryModel (fun _ => true) (fun _ => false)
        (fun _ => .response 500) 2).1 = .returned 500 := by
  have h := fetchWithRetry_transient_bound 2 (fun _ => .response 500)
    (by
      intro k _
      show isRetryableOutcome (.response 500) = true
      decide)
  refine ⟨h.1, ?_⟩
  have h2 := h.2.1
  rw [show lastReceivedStatus (fun _ => AttemptOutcome.response 500) 2 =
    some 500 from rfl] at h2
  exact h2

/-! ## Claim C9 — a timed-out attempt aborts the whole call -/

/-- If the first `k` attempts fail retryably and attempt `k` settles as an
`AbortError`, the loop rethrows the abort immediately: `k + 1` attempts in
total, regardless of remaining fuel. -/
lemma retryGo_abort_at (oracle : Nat → AttemptOutcome) :
    ∀ (k fuel attempt : Nat) (lastResp : Option Nat)
      (lastErr : Option LastError),
      k < fuel →
      (∀ j, j < k → isRetryableOutcome (oracle (attempt + j)) = true) →
      oracle (attempt + k) = .abortError →
      retryGo (fun _ => true) (fun _ => false) oracle attempt fuel lastResp
          lastErr = (.threwAbort, k + 1) := by
  intro k
  induction k with
  | zero =>
      intro fuel attempt lastResp lastErr hf _ habort
      cases fuel with
      | zero => omega
      | succ f =>
          unfold retryGo
          rw [if_neg (by simp), if_neg (by simp)]
          rw [show oracle attempt = .abortError from by simpa using habort]
  | succ k ih =>
      intro fuel attempt lastResp lastErr hf hretry habort
      cases fuel with
      | zero => omega
      | succ f =>
          have h0 : isRetryableOutcome (oracle attempt) = true := by
            simpa using hretry 0 (Nat.succ_pos _)
          have hshift : ∀ j, j < k →
              isRetryableOutcome (oracle (attempt + 1 + j)) = true := by
            intro j hj
            have : attempt + 1 + j = attempt + (j + 1) := by omega
            rw [this]
            exact hretry (j + 1) (by omega)
          have habort' : oracle (attempt + 1 + k) = .abortError := by
            have : attempt + 1 + k = attempt + (k + 1) := by omega
            rw [this]
            exact habort
          unfold retryGo
          rw [if_neg (by simp), if_neg (by simp)]
          cases ho : oracle attempt with
          | response st =>
              have hr : isRetryableOutcome (.response st) = true := ho ▸ h0
              have hnotok : ¬ httpOk st := retryable_response_not_ok st hr
              dsimp only
              rw [if_neg hnotok, if_neg (by simp [hr])]
              rw [ih f (attempt + 1) (some st) (some (.httpErr st))
                (by omega) hshift habort']
          | netError =>
              dsimp only
              rw [ih f (attempt + 1) lastResp (some .netErr)
                (by omega) hshift habort']
          | abortError =>
              rw [ho] at h0
              exact absurd h0 (by simp [isRetryableOutcome])

/-- C9, counterexample. The claim asserts that a timed-out attempt does not
by itself terminate the call while retry attempts remain. In the code the
per-attempt timer aborts the request, the resulting `AbortError` is
classified non-retryable by `isRetryableError` ("Timeout/abort errors are
not retryable") and is rethrown at once: with `maxRetries = 3` and a first
attempt whose response would arrive at 20000 ms against a 10000 ms timeout,
the call ends after exactly 1 attempt although 3 retries remained. -/
theorem timeout_terminates_call_counterexample :
    fetchWithRetryModel (fun _ => true) (fun _ => false)
        (fun _ => fetchWithTimeoutModel 10000 20000 (.response 200)) 3 =
      (.threwAbort, 1) ∧ (1 : Nat) < 3 + 1 := by
  decide

/-- C9, amended: every network attempt is wrapped in its own per-attempt
timeout of `timeoutMs`; an attempt that produces no response within
`timeoutMs` is cancelled and settles as an `AbortError`. That abort is
classified non-retryable, so the first timed-out attempt (say attempt `k`,
after `k` retryable failures) terminates the whole call immediately by
rethrowing the `AbortError` — after exactly `k + 1` attempts, even when
retry attempts remain. -/
theorem timeout_per_attempt_terminal (timeoutMs maxRetries k : Nat)
    (arrivals : Nat → Nat) (raw : Nat → AttemptOutcome)
    (hk : k ≤ maxRetries)
    (hretry : ∀ j, j < k →
      isRetryableOutcome
        (fetchWithTimeoutModel timeoutMs (arrivals j) (raw j)) = true)
    (htimeout : timeoutMs ≤ arrivals k) :
    fetchWithRetryModel (fun _ => true) (fun _ => false)
        (fun j => fetchWithTimeoutModel timeoutMs (arrivals j) (raw j))
        maxRetries = (.threwAbort, k + 1) := by
  have habort :
      fetchWithTimeoutModel timeoutMs (arrivals k) (raw k) = .abortError := by
    unfold fetchWithTimeoutModel
    rw [if_neg (by omega)]
  unfold fetchWithRetryModel
  refine retryGo_abort_at _ k (maxRetries + 1) 0 none none (by omega) ?_ ?_
  · intro j hj
    simpa using hretry j hj
  · simpa using habort

/-- C9, witness for the amended claim: attempt 0 gets a retryable 500 in
time, attempt 1 times out (arrival 20000 ms against timeout 10000 ms) and
ends the call: 2 attempts despite `maxRetries = 3`. -/
theorem timeout_per_attempt_terminal_witness :
    fetchWithRetryModel (fun _ => true) (fun _ => false)
        (fun j => fetchWithTimeoutModel 10000 (if j = 0 then 500 else 20000)
          (.response 500)) 3 = (.threwAbort, 2) :=
  timeout_per_attempt_terminal 10000 3 1
    (fun j => if j = 0 then 500 else 20000) (fun _ => .response 500)
    (by omega)
    (by
      intro j hj
      obtain rfl : j = 0 := by omega
      decide)
    (by decide)

/-! ## Claim C6 — all-or-nothing error of `fetchRandomSummaries` -/

/-- C6: for `n ≥ 1` concurrent single-card requests, the call returns
exactly the cards of the requests that succeeded, in request order; it
fails with the no-content error if and only if all `n` requests failed —
partial success returns the successful subset without error. -/
theorem fetchRandomSummaries_all_or_nothing (n : Nat) (hn : 1 ≤ n)
    (results : Nat → Option WikiCard) :
    (fetchRandomSummariesModel n results = .error "Failed to fetch summaries" ↔
      ∀ k, k < n → results k = none) ∧
    ((∃ k, k < n ∧ (results k).isSome) →
      fetchRandomSummariesModel n results =
        .ok ((List.range n).filterMap results)) := by
  unfold fetchRandomSummariesModel
  dsimp only
  have hempty : ((List.range n).filterMap results).isEmpty = true ↔
      ∀ k, k < n → results k = none := by
    rw [List.isEmpty_iff, List.filterMap_eq_nil_iff]
    simp [List.mem_range]
  constructor
  · constructor
    · intro h
      by_cases hcase : ((List.range n).filterMap results).isEmpty = true
      · exact hempty.mp hcase
      · rw [if_neg hcase] at h
        exact absurd h (by simp)
    · intro h
      rw [if_pos (hempty.mpr h)]
  · rintro ⟨k, hk, hsome⟩
    rw [if_neg]
    intro hcontra
    have := hempty.mp hcontra k hk
    rw [this] at hsome
    simp at hsome

/-- The settled outcomes used in the C6 witness: request 0 succeeds,
request 1 fails. -/
def sampleResults : Nat → Option WikiCard :=
  fun k => if k = 0 then some ⟨"a", "A"⟩ else none

/-- C6, witness: one of two requests succeeds — the call returns the single
successful card and no error. -/
theorem fetchRandomSummaries_all_or_nothing_witness :
    fetchRandomSummariesModel 2 sampleResults = .ok [⟨"a", "A"⟩] := by
  have h := (fetchRandomSummaries_all_or_nothing 2 (by omega) sampleResults).2
    ⟨0, by omega, by simp [sampleResults]⟩
  rw [h]
  rfl

/-! ## Claim C4 — swap safety of the double-buffer swappers -/

/-- A background state in which slot B holds a preloaded src whose load
event has not fired (`nextVideoReady = false`) while slot A is active. -/
def bgUnloadedPreload : BgState :=
  { activeSlot := Slot.A
    slotASrc := some "a"
    slotBSrc := some "b"
    nextVideoReady := false
    prevConfigSrc := some "a"
    pendingSwapSrc := none }

/-- C4, counterexample. The claim asserts an inactive buffer never becomes
active unless its loaded flag is true or its URL is in a process-wide
previously-loaded memo set, and that a swap to a not-yet-loaded inactive
buffer is deferred via a pending-swap intent. In the code the swap branch
(`configSrc === inactiveSlotSrc`) flips the active pointer immediately with
no loaded-flag check (and no memo set exists anywhere in the component):
from `bgUnloadedPreload`, whose inactive slot B has never fired a load
event, requesting src `b` makes B active at once and records no
pending-swap intent. -/
theorem bg_swap_unloaded_counterexample :
    bgUnloadedPreload.nextVideoReady = false ∧
    (bgConfigChange bgUnloadedPreload (some "b")).activeSlot = Slot.B ∧
    (bgConfigChange bgUnloadedPreload (some "b")).nextVideoReady = false ∧
    (bgConfigChange bgUnloadedPreload (some "b")).pendingSwapSrc = none := by
  decide

lemma BgState.setSrc_activeSlot (s : BgState) (slot : Slot)
    (v : Option String) : (s.setSrc slot v).activeSlot = s.activeSlot := by
  cases slot <;> rfl

/-- C4, amended: in both swappers, when the requested src equals the src
held by the inactive buffer, the active pointer swaps immediately and
unconditionally — with no loaded-flag or memo-set guard (no process-wide
memo set exists). A pending-swap deferral happens only in the background
swapper and only for a src held by neither buffer: it is assigned to the
inactive slot together with a pending-swap intent, leaving the active
pointer unchanged, and the deferred swap is performed by the load-completion
handler of that slot. -/
theorem swap_immediate_or_deferred :
    (∀ (s : BgState) (src old : String),
        s.prevConfigSrc = some old → old ≠ src →
        s.srcOf s.activeSlot.other = some src →
        bgConfigChange s (some src) =
          { s with
            activeSlot := s.activeSlot.other
            nextVideoReady := false
            pendingSwapSrc := none
            prevConfigSrc := some src }) ∧
    (∀ (s : BgState) (src old : String),
        s.prevConfigSrc = some old → old ≠ src →
        s.srcOf s.activeSlot.other ≠ some src →
        (bgConfigChange s (some src)).pendingSwapSrc = some src ∧
        (bgConfigChange s (some src)).activeSlot = s.activeSlot) ∧
    (∀ (s : BgState) (slot : Slot) (p : String),
        s.activeSlot ≠ slot → s.pendingSwapSrc = some p →
        s.srcOf slot = some p →
        bgCanPlay s slot =
          { s with
            activeSlot := slot
            pendingSwapSrc := none
            nextVideoReady := false }) ∧
    (∀ (s : CiState) (u old : String) (cached : String → Bool),
        s.prevSrc = some old → old ≠ u →
        (match s.activeSlot with
         | .A => s.slotBSrc
         | .B => s.slotASrc) = some u →
        ciSrcChange s (some u) cached =
          { s with activeSlot := s.activeSlot.other, prevSrc := some u }) := by
  refine ⟨?_, ?_, ?_, ?_⟩
  · intro s src old hprev hne hinact
    unfold bgConfigChange
    dsimp only
    rw [if_neg (by rw [hprev]; simp [hne]), hprev]
    dsimp only
    rw [if_pos hinact]
  · intro s src old hprev hne hinact
    unfold bgConfigChange
    dsimp only
    rw [if_neg (by rw [hprev]; simp [hne]), hprev]
    dsimp only
    rw [if_neg hinact]
    exact ⟨rfl, BgState.setSrc_activeSlot s s.activeSlot.other (some src)⟩
  · intro s slot p hne hp hsrc
    unfold bgCanPlay
    rw [if_neg hne, hp]
    dsimp only
    rw [if_pos (by rw [hsrc])]
  · intro s u old cached hprev hne hinact
    unfold ciSrcChange
    dsimp only
    rw [if_neg (by rw [hprev]; simp [hne]), hprev]
    dsimp only
    rw [if_pos hinact]

/-- C4, witness: the immediate swap applied to `bgUnloadedPreload`, and the
deferred-swap intent installed when a fresh src is requested. -/
theorem swap_immediate_or_deferred_witness :
    (bgConfigChange bgUnloadedPreload (some "b") =
      { activeSlot := Slot.B
        slotASrc := some "a"
        slotBSrc := some "b"
        nextVideoReady := false
        prevConfigSrc := some "b"
        pendingSwapSrc := none }) ∧
    (bgConfigChange bgUnloadedPreload (some "c")).pendingSwapSrc = some "c" :=
  ⟨swap_immediate_or_deferred.1 bgUnloadedPreload "b" "a" rfl
      (by decide) rfl,
   (swap_immediate_or_deferred.2.1 bgUnloadedPreload "c" "a" rfl
      (by decide) (by decide)).1⟩

/-! ## Claim C5 — crossfade opacity as a function of scroll progress -/

/-- C5, counterexample. The claim describes the inactive-buffer opacity as
ramping linearly from 0 at `progress = 0.2` to full opacity 1 as progress
approaches 1, and the active-buffer opacity as `1 - progress`. In the code
the ramp is `min((progress - 0.2) / 0.5, 1)`, which already reaches 1 at
`progress = 0.7`: at `progress = 0.8` the code gives 1 while the linear
ramp of the claim gives 3/4. Moreover, in the card-image swapper the
active-buffer opacity is forced to 0 while the active buffer has not
loaded: at `progress = 1/2` with an unloaded active buffer the code gives 0,
not `1 - 1/2`. -/
theorem opacity_formula_counterexample :
    ciNextOpacity true (4/5) = 1 ∧
    specInactiveOpacity true (4/5) = 3/4 ∧
    ((1 : ℚ) ≠ 3/4) ∧
    ciCurrentOpacity false (1/2) = 0 ∧
    ((0 : ℚ) ≠ 1 - 1/2) := by
  refine ⟨?_, ?_, by norm_num, ?_, by norm_num⟩
  · norm_num [ciNextOpacity, min_def]
  · norm_num [specInactiveOpacity]
  · norm_num [ciCurrentOpacity]

lemma bgNextOpacity_eq_ciNextOpacity (loaded : Bool) (p : ℚ) :
    bgNextOpacity loaded p = ciNextOpacity loaded p := rfl

/-- C5, amended: during a gesture with scroll progress `p`, the background
active-buffer opacity is `1 - p`; the card-image active-buffer opacity is
`1 - p` once the active buffer has loaded and 0 otherwise; and in both
swappers the inactive-buffer opacity is 0 whenever that buffer has not
completed loading or `p ≤ 0.2`, then ramps linearly with slope 2 —
`(p - 0.2) / 0.5` — and is clamped at full opacity 1 from `p = 0.7`
onward. -/
theorem opacity_piecewise :
    (∀ p : ℚ, bgCurrentOpacity p = 1 - p) ∧
    (∀ p : ℚ, ciCurrentOpacity true p = 1 - p ∧ ciCurrentOpacity false p = 0) ∧
    (∀ (loaded : Bool) (p : ℚ), p ≤ 1/5 →
      bgNextOpacity loaded p = 0 ∧ ciNextOpacity loaded p = 0) ∧
    (∀ p : ℚ, bgNextOpacity false p = 0 ∧ ciNextOpacity false p = 0) ∧
    (∀ p : ℚ, 1/5 < p → p ≤ 7/10 →
      bgNextOpacity true p = (p - 1/5) * 2 ∧
      ciNextOpacity true p = (p - 1/5) * 2) ∧
    (∀ p : ℚ, 7/10 ≤ p →
      bgNextOpacity true p = 1 ∧ ciNextOpacity true p = 1) := by
  have hramp : ∀ p : ℚ, (p - 1/5) / (1/2) = (p - 1/5) * 2 := by
    intro p
    rw [div_eq_mul_inv]
    norm_num
  refine ⟨fun p => rfl, fun p => ⟨rfl, rfl⟩, ?_, ?_, ?_, ?_⟩
  · intro loaded p hp
    rw [bgNextOpacity_eq_ciNextOpacity]
    unfold ciNextOpacity
    rw [if_neg (by rintro ⟨_, hlt⟩; linarith)]
    exact ⟨rfl, rfl⟩
  · intro p
    rw [bgNextOpacity_eq_ciNextOpacity]
    unfold ciNextOpacity
    rw [if_neg (by rintro ⟨hfalse, _⟩; exact Bool.false_ne_true hfalse)]
    exact ⟨rfl, rfl⟩
  · intro p hlo hhi
    rw [bgNextOpacity_eq_ciNextOpacity]
    unfold ciNextOpacity
    rw [if_pos ⟨rfl, hlo⟩]
    rw [min_eq_left (by rw [hramp]; linarith), hramp]
    exact ⟨rfl, rfl⟩
  · intro p hp
    rw [bgNextOpacity_eq_ciNextOpacity]
    unfold ciNextOpacity
    rw [if_pos ⟨rfl, by linarith⟩]
    rw [min_eq_right (by rw [hramp]; linarith)]
    exact ⟨rfl, rfl⟩

/-- C5, witness: a point on the ramp and a point in the clamped region. -/
theorem opacity_piecewise_witness :
    bgNextOpacity true (1/2) = (1/2 - 1/5) * 2 ∧
    ciNextOpacity true (9/10) = 1 :=
  ⟨(opacity_piecewise.2.2.2.2.1 (1/2) (by norm_num) (by norm_num)).1,
   (opacity_piecewise.2.2.2.2.2 (9/10) (by norm_num)).2⟩

/-! ## Claim C8 — rubber-band snap-back at the sequence bounds -/

/-- C8: when a scroll settles (guards clear) within the snap epsilon of the
next-slot position while the logical index is already the last index — or
of the prev-slot position while it is already 0 — the index is left
unchanged and the viewport is scrolled back to the centered middle-slot
position (`top = cardHeight`, smooth). Requires `cardHeight > 12` so that
the prev and next slots are farther apart than twice the snap epsilon. -/
theorem settle_rubber_band (scrollTop cardHeight : ℚ) (i len : Nat)
    (hh : 12 < cardHeight)
    (hcase :
      (|scrollTop - cardHeight * 2| ≤ max 12 (cardHeight * (12/100)) ∧
        (i : Int) = (len : Int) - 1) ∨
      (|scrollTop - 0| ≤ max 12 (cardHeight * (12/100)) ∧ i = 0)) :
    handleScrollEndModel false false scrollTop cardHeight i len =
      { newIndex := i, scrollTo := some (cardHeight, .smooth) } := by
  unfold handleScrollEndModel
  rw [if_neg (by simp)]
  dsimp only
  set ε := max (12 : ℚ) (cardHeight * (12/100)) with hε
  have hnotboth :
      ¬(|scrollTop - 0| ≤ ε ∧ |scrollTop - cardHeight * 2| ≤ ε) := by
    rintro ⟨h1, h2⟩
    rw [abs_le] at h1 h2
    have hcap : cardHeight ≤ ε := by linarith [h1.1, h1.2, h2.1, h2.2]
    rcases le_max_iff.mp (hε ▸ hcap) with hc | hc
    · linarith
    · nlinarith
  rcases hcase with ⟨hnext, hlast⟩ | ⟨hprev, hzero⟩
  · have hnoprev : ¬(|scrollTop - 0| ≤ ε) := fun hp => hnotboth ⟨hp, hnext⟩
    rw [if_neg (by rintro ⟨hp, _⟩; exact hnoprev hp)]
    rw [if_neg (by rintro ⟨_, hlt⟩; omega)]
    by_cases hcur : |scrollTop - cardHeight| ≤ ε
    · rw [if_neg (not_not_intro hcur), if_pos (Or.inr ⟨hnext, hlast⟩)]
    · rw [if_pos hcur, if_pos (Or.inr ⟨hnext, hlast⟩)]
  · have hnonext : ¬(|scrollTop - cardHeight * 2| ≤ ε) :=
      fun hn => hnotboth ⟨hprev, hn⟩
    rw [if_neg (by rintro ⟨_, hlt⟩; omega)]
    rw [if_neg (by rintro ⟨hn, _⟩; exact hnonext hn)]
    by_cases hcur : |scrollTop - cardHeight| ≤ ε
    · rw [if_neg (not_not_intro hcur), if_pos (Or.inl ⟨hprev, hzero⟩)]
    · rw [if_pos hcur, if_pos (Or.inl ⟨hprev, hzero⟩)]

/-- C8, witness: a 100 px viewport settled exactly at the next-slot offset
200 with the index already at the last card: the index stays 4 and a smooth
scroll back to 100 is issued. -/
theorem settle_rubber_band_witness :
    handleScrollEndModel false false 200 100 4 5 =
      { newIndex := 4, scrollTo := some (100, .smooth) } :=
  settle_rubber_band 200 100 4 5 (by norm_num)
    (Or.inl ⟨by norm_num, by norm_num⟩)

end Wiktok
